import Mathlib

/-!
A shallow embedding of the dataset acquisition stage implemented in
src/data/download_data.py and of the user lookup implemented in
src/auth/users.py of the oct25_bmlops_int_accidents repository.

Paths are modelled as strings over the POSIX separator, the filesystem as an
association list from file paths to file contents together with the list of
existing directories, and the Python functions as state-passing Lean
functions.  Python exceptions are modelled with Except.  Each run of the
acquisition stage additionally records a trace of its observable actions, so
that properties about how often and in which order the effects happen can be
stated.
-/

set_option autoImplicit false
set_option linter.unusedVariables false

/-- The process environment os.environ: a partial map from variable names to
values.  The embedded entry points take it as an explicit ambient input,
since any Python function may consult it; download_data never does, while
main reads RAW_DATA_PATH through getenv. -/
abbrev Env := String → Option String

/-- os.getenv key dflt: the value of the variable, or the default when the
variable is unset. -/
def getenv (env : Env) (key dflt : String) : String :=
  match env key with
  | some v => v
  | none => dflt

/-- Python exception values that the acquisition stage can produce or
propagate: ValueError from the two validation checks, FileNotFoundError from
os.rename on a missing source, FileExistsError from os.makedirs when a path
segment is occupied by a regular file, and an opaque constructor for any
other exception raised inside the caller-supplied download function. -/
inductive PyError where
  | valueError (msg : String)
  | fileNotFoundError (msg : String)
  | fileExistsError (msg : String)
  | other (msg : String)
deriving DecidableEq

/-- The characters of a path that follow its last slash;
posixpath.basename computes the slice after the final separator. -/
def basenameChars : List Char → List Char
  | [] => []
  | c :: cs =>
    if '/' ∈ cs then basenameChars cs
    else if c = '/' then cs
    else c :: cs

/-- os.path.basename: the final path segment. -/
def basename (p : String) : String :=
  ⟨basenameChars p.data⟩

/-- os.path.join on two POSIX path segments: an absolute second argument
wins; otherwise the parts are glued with exactly one separator. -/
def path_join (a b : String) : String :=
  if b.data.head? = some '/' then b
  else if a.data = [] ∨ a.data.getLast? = some '/' then a ++ b
  else a ++ "/" ++ b

/-- Splitting a character list at every slash, keeping empty segments, as
str.split of the separator does. -/
def splitSlash : List Char → List (List Char)
  | [] => [[]]
  | c :: rest =>
    match splitSlash rest with
    | [] => [[c]]
    | h :: t =>
      if c = '/' then [] :: h :: t
      else (c :: h) :: t

/-- The slash-separated components of a path. -/
def components (p : String) : List String :=
  (splitSlash p.data).map (fun cs => ⟨cs⟩)

/-- The chain of paths obtained by joining ever longer component lists onto
a first component. -/
def chainFrom (acc : String) : List String → List String
  | [] => [acc]
  | c :: cs => acc :: chainFrom (acc ++ "/" ++ c) cs

def dropEmpties : List String → List String
  | [] => []
  | d :: ds => if d = "" then dropEmpties ds else d :: dropEmpties ds

/-- The proper ancestor directories that os.makedirs ensures before creating
the path itself: the joins of the strict leading component chains, with the
empty root segment dropped. -/
def ancestors (p : String) : List String :=
  match components p with
  | [] => []
  | [_] => []
  | c :: cs => dropEmpties (chainFrom c cs.dropLast)

/-- Filesystem state: regular files as an association list from path to
content, plus the list of existing directories. -/
structure FS where
  files : List (String × String)
  dirs : List String
deriving DecidableEq

/-- Association-list lookup on string keys. -/
def lookupKey {α : Type} : List (String × α) → String → Option α
  | [], _ => none
  | (k, v) :: rest, p => if k = p then some v else lookupKey rest p

/-- os.path.isfile: the path carries a regular file. -/
def FS.fileExists (fs : FS) (p : String) : Bool :=
  (lookupKey fs.files p).isSome

def strMem (p : String) : List String → Bool
  | [] => false
  | d :: ds => if d = p then true else strMem p ds

/-- os.path.isdir: the path is an existing directory. -/
def FS.dirExists (fs : FS) (p : String) : Bool :=
  strMem p fs.dirs

/-- One os.mkdir call as issued by os.makedirs with exist_ok=True: a path
occupied by a regular file is an error, an already existing directory is
accepted silently, otherwise the directory is created. -/
def FS.mkdirStep (fs : FS) (d : String) : Except PyError FS :=
  if fs.fileExists d then .error (.fileExistsError d)
  else if fs.dirExists d then .ok fs
  else .ok ⟨fs.files, d :: fs.dirs⟩

def FS.makedirsSteps : FS → List String → Except PyError FS
  | fs, [] => .ok fs
  | fs, d :: ds =>
    match fs.mkdirStep d with
    | .error e => .error e
    | .ok fs' => FS.makedirsSteps fs' ds

/-- os.makedirs(p, exist_ok=True): ensure every missing ancestor directory
of p in root-to-leaf order, then p itself. -/
def FS.makedirs (fs : FS) (p : String) : Except PyError FS :=
  match FS.makedirsSteps fs (ancestors p) with
  | .error e => .error e
  | .ok fs' => fs'.mkdirStep p

/-- Removal of the entries keyed by either of two paths. -/
def removeKeys (src dst : String) : List (String × String) → List (String × String)
  | [] => []
  | (k, v) :: rest =>
    if k = src ∨ k = dst then removeKeys src dst rest
    else (k, v) :: removeKeys src dst rest

/-- os.rename src dst with POSIX semantics: fails with FileNotFoundError
when the source is missing, otherwise moves the content, silently replacing
any file already at dst (renaming a path onto itself succeeds and leaves the
file in place).  download_data only calls it after os.makedirs has ensured
the destination directory. -/
def FS.rename (fs : FS) (src dst : String) : Except PyError FS :=
  match lookupKey fs.files src with
  | none => .error (.fileNotFoundError src)
  | some c => .ok ⟨(dst, c) :: removeKeys src dst fs.files, fs.dirs⟩

instance {ε α : Type} [DecidableEq ε] [DecidableEq α] : DecidableEq (Except ε α) :=
  fun a b =>
  match a, b with
  | .error x, .error y =>
    if h : x = y then isTrue (by rw [h]) else isFalse (by simp [h])
  | .ok x, .ok y =>
    if h : x = y then isTrue (by rw [h]) else isFalse (by simp [h])
  | .error _, .ok _ => isFalse (by simp)
  | .ok _, .error _ => isFalse (by simp)

/-- Observable actions of one download_data run. -/
inductive Event where
  | invokeRetrieve
  | makedirsEvt (p : String)
  | renameEvt (src dst : String)
deriving DecidableEq

/-- The caller-supplied download function: invoked with no Python arguments,
it may read and change the filesystem (it downloads somewhere) and either
returns the path of the downloaded file or raises. -/
abbrev DownloadFunc := FS → Except PyError String × FS

/-- Result of one run: the returned path or the raised exception, the final
filesystem, and the trace of observable actions. -/
structure RunResult where
  result : Except PyError String
  fs : FS
  events : List Event
deriving DecidableEq

/-- How often the download function was invoked in a trace. -/
def countInvokes : List Event → Nat
  | [] => 0
  | .invokeRetrieve :: es => countInvokes es + 1
  | _ :: es => countInvokes es

/-- download_data after a successful retrieval: os.makedirs on the
destination directory, then os.rename of the downloaded file onto the
destination joined with its base name (src/data/download_data.py,
lines 34-42). -/
def afterRetrieve (raw_data_path file_path : String) (fs₁ : FS) : RunResult :=
  match FS.makedirs fs₁ raw_data_path with
  | .error e => ⟨.error e, fs₁, [.invokeRetrieve, .makedirsEvt raw_data_path]⟩
  | .ok fs₂ =>
    match fs₂.rename file_path (path_join raw_data_path (basename file_path)) with
    | .error e =>
      ⟨.error e, fs₂,
        [.invokeRetrieve, .makedirsEvt raw_data_path,
          .renameEvt file_path (path_join raw_data_path (basename file_path))]⟩
    | .ok fs₃ =>
      ⟨.ok (path_join raw_data_path (basename file_path)), fs₃,
        [.invokeRetrieve, .makedirsEvt raw_data_path,
          .renameEvt file_path (path_join raw_data_path (basename file_path))]⟩

/-- The body of download_data once validation has passed: file_path =
download_func(), then directory creation and the move. -/
def downloadBody (raw_data_path : String) (f : DownloadFunc) (fs : FS) : RunResult :=
  match f fs with
  | (Except.error e, fs₁) => ⟨.error e, fs₁, [.invokeRetrieve]⟩
  | (Except.ok file_path, fs₁) => afterRetrieve raw_data_path file_path fs₁

/-- download_data from src/data/download_data.py: validate that the
destination path is non-empty and the download function present (raising
ValueError otherwise, before any I/O), invoke the download function, ensure
the destination directory, and move the downloaded file onto the destination
joined with its base name.  The logging calls perform no filesystem
change and are not modelled. -/
def download_data (env : Env) (raw_data_path : String)
    (download_func : Option DownloadFunc) (fs : FS) : RunResult :=
  if raw_data_path = "" then
    ⟨.error (.valueError ("raw_data_path cannot be empty")), fs, []⟩
  else
    match download_func with
    | none => ⟨.error (.valueError ("download_func cannot be empty")), fs, []⟩
    | some f => downloadBody raw_data_path f fs

/-- main from src/data/download_data.py: resolves the destination from the
RAW_DATA_PATH environment variable (default data/raw/) relative to the
repository root, pre-creates it, and calls download_data with the
kagglehub-backed download function. -/
def main_entry (env : Env) (root_dir : String) (download_kaggle_data : DownloadFunc)
    (fs : FS) : RunResult :=
  match FS.makedirs fs (path_join root_dir (getenv env ("RAW_DATA_PATH") ("data/raw/"))) with
  | .error e => ⟨.error e, fs, []⟩
  | .ok fs₁ =>
    download_data env (path_join root_dir (getenv env ("RAW_DATA_PATH") ("data/raw/")))
      (some download_kaggle_data) fs₁

/-- Modelled from the spec: UserInDB comes from src/auth/schemas.py, which
is not part of the corpus; it is modelled as a plain record of the three
fields that fake_users_db stores. -/
structure UserInDB where
  username : String
  hashed_password : String
  disabled : Bool
deriving DecidableEq

/-- The hard-coded user store from src/auth/users.py, keyed by username. -/
def fake_users_db : List (String × UserInDB) :=
  [("alice", ⟨"alice", "$2b$12$KIXQ1j1F8pYQxvFJH3hE5O6ZLZK9Gz7Hh9c6mV1XyN0k7P6f4nJqS", false⟩)]

/-- get_user from src/auth/users.py: dictionary lookup; a found (non-empty)
record is returned as a UserInDB, an unknown username yields None. -/
def get_user (username : String) : Option UserInDB :=
  match lookupKey fake_users_db username with
  | some u => some u
  | none => none

/-! Concrete fixtures used by the witness and counterexample theorems -/

def env0 : Env := fun _ => none

def fsEmpty : FS := ⟨[], []⟩

def fW1 : DownloadFunc := fun fs => (.ok ("srcdir/my_data.tar.gz"), fs)

def fsW1 : FS := ⟨[("srcdir/my_data.tar.gz", "payload")], ["srcdir"]⟩

def fX1 : DownloadFunc := fun fs => (.ok ("dataset.zip"), fs)

def fsX1 : FS := ⟨[("raw", "occupied"), ("dataset.zip", "payload")], []⟩

def fW2 : DownloadFunc := fun fs => (.ok ("srcdir/accidents.zip"), fs)

def fsW2 : FS := ⟨[("srcdir/accidents.zip", "test data")], ["srcdir"]⟩

def fX2 : DownloadFunc := fun fs => (.ok ("raw/dataset.zip"), fs)

def fsX2 : FS := ⟨[("raw/dataset.zip", "test data")], ["raw"]⟩

def fErr : DownloadFunc := fun fs => (.error (.other ("network unreachable")), fs)

def fGhost : DownloadFunc := fun fs => (.ok ("ghost.zip"), fs)

def fW6 : DownloadFunc := fun fs => (.ok ("d.csv"), fs)

def fsW6 : FS := ⟨[("d.csv", "rows")], []⟩

def fW7 : DownloadFunc := fun fs => (.ok ("part.csv"), fs)

def fsW7 : FS := ⟨[("part.csv", "x")], []⟩

def fW9 : DownloadFunc := fun fs => (.ok ("incoming/new.zip"), fs)

def fsW9 : FS := ⟨[("incoming/new.zip", "NEW"), ("raw/new.zip", "OLD")], ["incoming", "raw"]⟩

/-! Helper lemmas about paths -/

theorem str_ext {s t : String} (h : s.data = t.data) : s = t := by
  cases s; cases t; exact congrArg String.mk h

theorem data_append (s t : String) : (s ++ t).data = s.data ++ t.data := rfl

theorem basenameChars_no_slash {cs : List Char} (h : '/' ∉ cs) :
    basenameChars cs = cs := by
  cases cs with
  | nil => rfl
  | cons c cs =>
    have h1 : '/' ∉ cs := fun hm => h (List.mem_cons_of_mem _ hm)
    have h2 : ¬c = '/' := fun hc => h (by rw [hc]; exact List.mem_cons_self _ _)
    simp [basenameChars, h1, h2]

theorem basenameChars_append (xs ys : List Char) :
    basenameChars (xs ++ '/' :: ys) = basenameChars ys := by
  induction xs with
  | nil =>
    by_cases h : '/' ∈ ys
    · simp [basenameChars, h]
    · simp [basenameChars, h, basenameChars_no_slash h]
  | cons x xs ih =>
    have hmem : '/' ∈ xs ++ '/' :: ys := by simp
    simp [basenameChars, hmem, ih]

theorem slash_not_mem_basenameChars (cs : List Char) : '/' ∉ basenameChars cs := by
  induction cs with
  | nil => simp [basenameChars]
  | cons c cs ih =>
    by_cases h : '/' ∈ cs
    · simpa only [basenameChars, if_pos h] using ih
    · by_cases hc : c = '/'
      · simp only [basenameChars, if_neg h, if_pos hc]
        exact h
      · simp only [basenameChars, if_neg h, if_neg hc]
        intro hm
        rcases List.mem_cons.mp hm with he | hm'
        · exact hc he.symm
        · exact h hm'

theorem basename_no_slash (q : String) : '/' ∉ (basename q).data :=
  slash_not_mem_basenameChars q.data

theorem basename_join (p b : String) (hb : '/' ∉ b.data) :
    basename (path_join p b) = b := by
  have hb' : ¬b.data.head? = some '/' := by
    cases hd : b.data with
    | nil => simp
    | cons c cs =>
      simp only [List.head?, Option.some.injEq]
      intro hc
      exact hb (by rw [hd, hc]; exact List.mem_cons_self _ _)
  unfold path_join
  rw [if_neg hb']
  by_cases h2 : p.data = [] ∨ p.data.getLast? = some '/'
  · rw [if_pos h2]
    rcases h2 with hnil | hlast
    · apply str_ext
      show basenameChars (p ++ b).data = b.data
      rw [data_append, hnil, List.nil_append]
      exact basenameChars_no_slash hb
    · have hne : p.data ≠ [] := by
        intro h0; rw [h0] at hlast; simp at hlast
      have hlastv : p.data.getLast hne = '/' := by
        have := List.getLast?_eq_getLast p.data hne
        rw [this] at hlast
        exact (Option.some.injEq _ _).mp hlast
      have hdecomp : p.data.dropLast ++ ['/'] = p.data := by
        rw [← hlastv]; exact List.dropLast_append_getLast hne
      apply str_ext
      show basenameChars (p ++ b).data = b.data
      rw [data_append, ← hdecomp, List.append_assoc, List.singleton_append,
        basenameChars_append]
      exact basenameChars_no_slash hb
  · rw [if_neg h2]
    apply str_ext
    show basenameChars (p ++ "/" ++ b).data = b.data
    rw [data_append, data_append]
    have hslash : ("/" : String).data = ['/'] := rfl
    rw [hslash, List.append_assoc, List.singleton_append, basenameChars_append]
    exact basenameChars_no_slash hb

/-! Helper lemmas about the filesystem operations -/

theorem lookupKey_cons {α : Type} (k : String) (v : α) (rest : List (String × α))
    (p : String) :
    lookupKey ((k, v) :: rest) p = if k = p then some v else lookupKey rest p := rfl

theorem lookupKey_removeKeys (src dst x : String) (hx : x = src ∨ x = dst)
    (l : List (String × String)) :
    lookupKey (removeKeys src dst l) x = none := by
  induction l with
  | nil => rfl
  | cons kv rest ih =>
    obtain ⟨k, v⟩ := kv
    by_cases hk : k = src ∨ k = dst
    · simp [removeKeys, hk, ih]
    · have hkx : ¬k = x := by
        rcases hx with rfl | rfl <;> tauto
      simp [removeKeys, hk, lookupKey, hkx, ih]

theorem fileExists_congr {fs fs' : FS} (h : fs'.files = fs.files) (x : String) :
    fs'.fileExists x = fs.fileExists x := by
  unfold FS.fileExists; rw [h]

theorem strMem_cons_self (p : String) (l : List String) : strMem p (p :: l) = true := by
  simp [strMem]

theorem strMem_cons_of (p d : String) (l : List String) (h : strMem p l = true) :
    strMem p (d :: l) = true := by
  by_cases hd : d = p <;> simp [strMem, hd, h]

theorem mkdirStep_ok {fs fs' : FS} {d : String} (h : fs.mkdirStep d = .ok fs') :
    fs'.files = fs.files ∧ fs'.dirExists d = true ∧
      (∀ x, fs.dirExists x = true → fs'.dirExists x = true) := by
  unfold FS.mkdirStep at h
  by_cases h1 : fs.fileExists d = true
  · rw [if_pos h1] at h; cases h
  · rw [if_neg h1] at h
    by_cases h2 : fs.dirExists d = true
    · rw [if_pos h2] at h
      cases h
      exact ⟨rfl, h2, fun x hx => hx⟩
    · rw [if_neg h2] at h
      cases h
      exact ⟨rfl, strMem_cons_self d fs.dirs, fun x hx => strMem_cons_of x d fs.dirs hx⟩

theorem mkdirStep_ok_of_no_file {fs : FS} {d : String} (h : fs.fileExists d = false) :
    ∃ fs', fs.mkdirStep d = .ok fs' := by
  unfold FS.mkdirStep
  rw [if_neg (by simp [h])]
  by_cases h2 : fs.dirExists d = true
  · rw [if_pos h2]; exact ⟨fs, rfl⟩
  · rw [if_neg h2]; exact ⟨_, rfl⟩

theorem makedirsSteps_ok (l : List String) :
    ∀ fs fs' : FS, FS.makedirsSteps fs l = .ok fs' →
      fs'.files = fs.files ∧
      (∀ x, fs.dirExists x = true → fs'.dirExists x = true) ∧
      (∀ d, d ∈ l → fs'.dirExists d = true) := by
  induction l with
  | nil =>
    intro fs fs' h
    cases h
    exact ⟨rfl, fun x hx => hx, by simp⟩
  | cons d ds ih =>
    intro fs fs' h
    simp only [FS.makedirsSteps] at h
    cases hstep : fs.mkdirStep d with
    | error e =>
      simp only [hstep] at h
      exact Except.noConfusion h
    | ok fs₁ =>
      simp only [hstep] at h
      obtain ⟨hf1, hd1, hmono1⟩ := mkdirStep_ok hstep
      obtain ⟨hf2, hmono2, hall⟩ := ih fs₁ fs' h
      refine ⟨hf2.trans hf1, fun x hx => hmono2 x (hmono1 x hx), ?_⟩
      intro x hx
      rcases List.mem_cons.mp hx with rfl | hx'
      · exact hmono2 x hd1
      · exact hall x hx'

theorem makedirsSteps_total (l : List String) :
    ∀ fs : FS, (∀ d, d ∈ l → fs.fileExists d = false) →
      ∃ fs', FS.makedirsSteps fs l = .ok fs' := by
  induction l with
  | nil => intro fs h; exact ⟨fs, rfl⟩
  | cons d ds ih =>
    intro fs h
    obtain ⟨fs₁, hstep⟩ := mkdirStep_ok_of_no_file (h d (List.mem_cons_self d ds))
    obtain ⟨hf1, -, -⟩ := mkdirStep_ok hstep
    obtain ⟨fs', hrest⟩ := ih fs₁ (fun x hx => by
      rw [fileExists_congr hf1]
      exact h x (List.mem_cons_of_mem _ hx))
    refine ⟨fs', ?_⟩
    simp only [FS.makedirsSteps, hstep]
    exact hrest

theorem makedirsSteps_id (l : List String) :
    ∀ fs : FS, (∀ d, d ∈ l → fs.dirExists d = true ∧ fs.fileExists d = false) →
      FS.makedirsSteps fs l = .ok fs := by
  induction l with
  | nil => intro fs h; rfl
  | cons d ds ih =>
    intro fs h
    obtain ⟨hdir, hfile⟩ := h d (List.mem_cons_self d ds)
    have hstep : fs.mkdirStep d = .ok fs := by
      unfold FS.mkdirStep
      rw [if_neg (by simp [hfile]), if_pos hdir]
    simp only [FS.makedirsSteps, hstep]
    exact ih fs (fun x hx => h x (List.mem_cons_of_mem _ hx))

theorem makedirs_ok {fs fs' : FS} {p : String} (h : FS.makedirs fs p = .ok fs') :
    fs'.files = fs.files ∧ fs'.dirExists p = true ∧
      (∀ d, d ∈ ancestors p → fs'.dirExists d = true) := by
  unfold FS.makedirs at h
  cases hs : FS.makedirsSteps fs (ancestors p) with
  | error e =>
    simp only [hs] at h
    exact Except.noConfusion h
  | ok fs₁ =>
    simp only [hs] at h
    obtain ⟨hf1, hmono1, hall1⟩ := makedirsSteps_ok _ _ _ hs
    obtain ⟨hf2, hd2, hmono2⟩ := mkdirStep_ok h
    exact ⟨hf2.trans hf1, hd2, fun d hd => hmono2 d (hall1 d hd)⟩

theorem makedirs_total {fs : FS} {p : String}
    (h1 : ∀ d, d ∈ ancestors p → fs.fileExists d = false)
    (h2 : fs.fileExists p = false) :
    ∃ fs', FS.makedirs fs p = .ok fs' := by
  obtain ⟨fs₁, hs⟩ := makedirsSteps_total (ancestors p) fs h1
  obtain ⟨hf1, -, -⟩ := makedirsSteps_ok _ _ _ hs
  obtain ⟨fs', hstep⟩ := mkdirStep_ok_of_no_file
    (show fs₁.fileExists p = false by rw [fileExists_congr hf1]; exact h2)
  refine ⟨fs', ?_⟩
  unfold FS.makedirs
  rw [hs]
  exact hstep

theorem makedirs_id {fs : FS} {p : String}
    (h1 : ∀ d, d ∈ ancestors p → fs.dirExists d = true ∧ fs.fileExists d = false)
    (h2 : fs.dirExists p = true) (h3 : fs.fileExists p = false) :
    FS.makedirs fs p = .ok fs := by
  have hs := makedirsSteps_id (ancestors p) fs h1
  unfold FS.makedirs
  rw [hs]
  show fs.mkdirStep p = Except.ok fs
  unfold FS.mkdirStep
  rw [if_neg (by simp [h3]), if_pos h2]

/-! Unfolding lemmas for download_data -/

theorem dd_some (env : Env) (p : String) (f : DownloadFunc) (fs : FS) (hp : p ≠ "") :
    download_data env p (some f) fs = downloadBody p f fs := by
  unfold download_data
  rw [if_neg hp]

theorem dd_none (env : Env) (p : String) (fs : FS) (hp : p ≠ "") :
    download_data env p none fs =
      ⟨.error (.valueError ("download_func cannot be empty")), fs, []⟩ := by
  unfold download_data
  rw [if_neg hp]

theorem body_err {p : String} {f : DownloadFunc} {fs fs₁ : FS} {e : PyError}
    (hf : f fs = (.error e, fs₁)) :
    downloadBody p f fs = ⟨.error e, fs₁, [.invokeRetrieve]⟩ := by
  unfold downloadBody
  rw [hf]

theorem body_ok {p : String} {f : DownloadFunc} {fs fs₁ : FS} {src : String}
    (hf : f fs = (.ok src, fs₁)) :
    downloadBody p f fs = afterRetrieve p src fs₁ := by
  unfold downloadBody
  rw [hf]

theorem after_mkErr {p src : String} {fs₁ : FS} {e : PyError}
    (hmk : FS.makedirs fs₁ p = .error e) :
    afterRetrieve p src fs₁ = ⟨.error e, fs₁, [.invokeRetrieve, .makedirsEvt p]⟩ := by
  unfold afterRetrieve
  rw [hmk]

theorem rename_ok {fs : FS} {src : String} {c : String}
    (hc : lookupKey fs.files src = some c) (dst : String) :
    fs.rename src dst = .ok ⟨(dst, c) :: removeKeys src dst fs.files, fs.dirs⟩ := by
  unfold FS.rename
  rw [hc]

theorem rename_err {fs : FS} {src : String}
    (hc : lookupKey fs.files src = none) (dst : String) :
    fs.rename src dst = .error (.fileNotFoundError src) := by
  unfold FS.rename
  rw [hc]

theorem after_ok {p src : String} {fs₁ fs₂ : FS} {c : String}
    (hmk : FS.makedirs fs₁ p = .ok fs₂)
    (hc : lookupKey fs₂.files src = some c) :
    afterRetrieve p src fs₁ =
      ⟨.ok (path_join p (basename src)),
        ⟨(path_join p (basename src), c) ::
            removeKeys src (path_join p (basename src)) fs₂.files, fs₂.dirs⟩,
        [.invokeRetrieve, .makedirsEvt p,
          .renameEvt src (path_join p (basename src))]⟩ := by
  unfold afterRetrieve
  simp only [hmk, rename_ok hc]

theorem after_renameErr {p src : String} {fs₁ fs₂ : FS}
    (hmk : FS.makedirs fs₁ p = .ok fs₂)
    (hc : lookupKey fs₂.files src = none) :
    afterRetrieve p src fs₁ =
      ⟨.error (.fileNotFoundError src), fs₂,
        [.invokeRetrieve, .makedirsEvt p,
          .renameEvt src (path_join p (basename src))]⟩ := by
  unfold afterRetrieve
  simp only [hmk, rename_err hc]

/-! The claims -/

/-- Claim C1 counterexample: the destination path raw is occupied by a
regular file while the download function validly returns an existing file;
os.makedirs raises FileExistsError, so download_data fails, refuting the
claim that acquire succeeds for every non-empty destination directory. -/
theorem download_data_dest_occupied_fails :
    fsX1.fileExists ("dataset.zip") = true ∧
    (download_data env0 ("raw") (some fX1) fsX1).result =
      .error (.fileExistsError ("raw")) :=
  ⟨by decide, by decide⟩

/-- Claim C1 (amended): for every non-empty destination directory and valid
download function, if the download function returns a path to an existing
file and no segment of the destination directory chain is occupied by a
regular file, download_data succeeds and returns the destination joined
with the base name of the downloaded file; that path exists as a file, the
destination directory exists, and the base name (multi-part extensions
included) is preserved verbatim. -/
theorem download_data_places_artifact (env : Env) (p : String) (f : DownloadFunc)
    (fs fs₁ : FS) (src : String)
    (hp : p ≠ "")
    (hf : f fs = (.ok src, fs₁))
    (hex : fs₁.fileExists src = true)
    (hanc : ∀ d, d ∈ ancestors p → fs₁.fileExists d = false)
    (hdest : fs₁.fileExists p = false) :
    (download_data env p (some f) fs).result = .ok (path_join p (basename src)) ∧
    (download_data env p (some f) fs).fs.fileExists (path_join p (basename src)) = true ∧
    (download_data env p (some f) fs).fs.dirExists p = true ∧
    basename (path_join p (basename src)) = basename src := by
  obtain ⟨fs₂, hmk⟩ := makedirs_total hanc hdest
  obtain ⟨hfiles, hdirp, -⟩ := makedirs_ok hmk
  have hex₂ : (lookupKey fs₂.files src).isSome = true := by
    rw [show lookupKey fs₂.files src = lookupKey fs₁.files src from by rw [hfiles]]
    exact hex
  obtain ⟨c, hc⟩ := Option.isSome_iff_exists.mp hex₂
  have hrun := (dd_some env p f fs hp).trans ((body_ok hf).trans (after_ok hmk hc))
  rw [hrun]
  refine ⟨rfl, ?_, hdirp, basename_join p (basename src) (basename_no_slash src)⟩
  show (lookupKey
      ((path_join p (basename src), c) ::
        removeKeys src (path_join p (basename src)) fs₂.files)
      (path_join p (basename src))).isSome = true
  rw [lookupKey_cons, if_pos rfl]
  rfl

/-- Claim C1 witness: a concrete run in which my_data.tar.gz keeps its full
multi-part extension at the destination. -/
theorem download_data_places_artifact_witness :
    (download_data env0 ("raw") (some fW1) fsW1).result =
      .ok (path_join ("raw") (basename ("srcdir/my_data.tar.gz"))) ∧
    (download_data env0 ("raw") (some fW1) fsW1).fs.fileExists
      (path_join ("raw") (basename ("srcdir/my_data.tar.gz"))) = true ∧
    (download_data env0 ("raw") (some fW1) fsW1).fs.dirExists ("raw") = true ∧
    basename (path_join ("raw") (basename ("srcdir/my_data.tar.gz"))) =
      basename ("srcdir/my_data.tar.gz") :=
  download_data_places_artifact env0 ("raw") fW1 fsW1 fsW1 ("srcdir/my_data.tar.gz")
    (by decide) rfl (by decide) (by decide) (by decide)

/-- Claim C2 counterexample: the download function returns a file that
already sits at the computed destination path; the run succeeds, yet the
path originally returned by the download function still exists afterwards,
refuting the claim that the source path is always gone after success. -/
theorem download_data_source_at_dest_survives :
    fX2 fsX2 = (.ok ("raw/dataset.zip"), fsX2) ∧
    (download_data env0 ("raw") (some fX2) fsX2).result = .ok ("raw/dataset.zip") ∧
    (download_data env0 ("raw") (some fX2) fsX2).fs.fileExists ("raw/dataset.zip") = true :=
  ⟨rfl, by decide, by decide⟩

/-- Claim C2 (amended): download_data moves rather than copies: on a
successful run the destination holds exactly the content the download
function produced and, provided the computed destination path differs from
the source path, the source path no longer exists. -/
theorem download_data_move_semantics (env : Env) (p : String) (f : DownloadFunc)
    (fs fs₁ fs₂ : FS) (src c : String)
    (hp : p ≠ "")
    (hf : f fs = (.ok src, fs₁))
    (hc : lookupKey fs₁.files src = some c)
    (hmk : FS.makedirs fs₁ p = .ok fs₂)
    (hne : src ≠ path_join p (basename src)) :
    (download_data env p (some f) fs).result = .ok (path_join p (basename src)) ∧
    lookupKey (download_data env p (some f) fs).fs.files
      (path_join p (basename src)) = some c ∧
    (download_data env p (some f) fs).fs.fileExists src = false := by
  obtain ⟨hfiles, -, -⟩ := makedirs_ok hmk
  have hc₂ : lookupKey fs₂.files src = some c := by rw [hfiles]; exact hc
  have hrun := (dd_some env p f fs hp).trans ((body_ok hf).trans (after_ok hmk hc₂))
  rw [hrun]
  refine ⟨rfl, ?_, ?_⟩
  · show lookupKey
        ((path_join p (basename src), c) ::
          removeKeys src (path_join p (basename src)) fs₂.files)
        (path_join p (basename src)) = some c
    rw [lookupKey_cons, if_pos rfl]
  · show (lookupKey
        ((path_join p (basename src), c) ::
          removeKeys src (path_join p (basename src)) fs₂.files) src).isSome = false
    rw [lookupKey_cons, if_neg (fun h => hne h.symm),
      lookupKey_removeKeys src (path_join p (basename src)) src (Or.inl rfl)]
    rfl

/-- Claim C2 witness: a concrete move in which the destination holds the
source content byte for byte and the source path is gone. -/
theorem download_data_move_semantics_witness :
    (download_data env0 ("raw") (some fW2) fsW2).result =
      .ok (path_join ("raw") (basename ("srcdir/accidents.zip"))) ∧
    lookupKey (download_data env0 ("raw") (some fW2) fsW2).fs.files
      (path_join ("raw") (basename ("srcdir/accidents.zip"))) = some ("test data") ∧
    (download_data env0 ("raw") (some fW2) fsW2).fs.fileExists
      ("srcdir/accidents.zip") = false :=
  download_data_move_semantics env0 ("raw") fW2 fsW2 fsW2
    ⟨fsW2.files, ["raw", "srcdir"]⟩ ("srcdir/accidents.zip") ("test data")
    (by decide) rfl (by decide) rfl (by decide)

/-- Claim C3: every failure of the download function surfaces to the caller
unchanged — an exception raised inside it propagates verbatim with nothing
else done, and a returned path that does not exist at move time raises
FileNotFoundError (the two conditions the spec classifies as
AcquisitionFailed); the stage never swallows or reinterprets them. -/
theorem download_data_propagates_failures (env : Env) (p : String) (hp : p ≠ "") :
    (∀ (f : DownloadFunc) (fs fs₁ : FS) (e : PyError),
      f fs = (.error e, fs₁) →
      download_data env p (some f) fs = ⟨.error e, fs₁, [.invokeRetrieve]⟩) ∧
    (∀ (f : DownloadFunc) (fs fs₁ fs₂ : FS) (src : String),
      f fs = (.ok src, fs₁) →
      FS.makedirs fs₁ p = .ok fs₂ →
      fs₂.fileExists src = false →
      (download_data env p (some f) fs).result = .error (.fileNotFoundError src)) := by
  constructor
  · intro f fs fs₁ e hf
    exact (dd_some env p f fs hp).trans (body_err hf)
  · intro f fs fs₁ fs₂ src hf hmk hex
    have hnone : lookupKey fs₂.files src = none := by
      cases hl : lookupKey fs₂.files src with
      | none => rfl
      | some c =>
        exfalso
        have hsome : fs₂.fileExists src = true := by
          unfold FS.fileExists
          rw [hl]
          rfl
        rw [hsome] at hex
        exact Bool.noConfusion hex
    have hrun := (dd_some env p f fs hp).trans
      ((body_ok hf).trans (after_renameErr hmk hnone))
    rw [hrun]

/-- Claim C3 witness: a raised exception comes back verbatim, and a download
function claiming a non-existent file yields FileNotFoundError. -/
theorem download_data_propagates_failures_witness :
    download_data env0 ("raw") (some fErr) fsEmpty =
      ⟨.error (.other ("network unreachable")), fsEmpty, [.invokeRetrieve]⟩ ∧
    (download_data env0 ("raw") (some fGhost) fsEmpty).result =
      .error (.fileNotFoundError ("ghost.zip")) :=
  ⟨(download_data_propagates_failures env0 ("raw") (by decide)).1 fErr fsEmpty fsEmpty
      (.other ("network unreachable")) rfl,
   (download_data_propagates_failures env0 ("raw") (by decide)).2 fGhost fsEmpty fsEmpty
      ⟨[], ["raw"]⟩ ("ghost.zip") rfl rfl (by decide)⟩

/-- Claim C4: no partial success — every invocation either returns a
destination path that exists, or raises an error having moved nothing: on
error the file map is exactly the input one (validation failures) or
exactly the one the download function left behind (later failures), so no
renamed file sits at the destination. -/
theorem download_data_no_partial_success (env : Env) (p : String)
    (df : Option DownloadFunc) (fs : FS) :
    (∃ dst, (download_data env p df fs).result = .ok dst ∧
      (download_data env p df fs).fs.fileExists dst = true) ∨
    (∃ e, (download_data env p df fs).result = .error e ∧
      ((download_data env p df fs).fs.files = fs.files ∨
        ∃ f r fs₁, df = some f ∧ f fs = (r, fs₁) ∧
          (download_data env p df fs).fs.files = fs₁.files)) := by
  by_cases hp : p = ""
  · subst hp
    right
    exact ⟨.valueError ("raw_data_path cannot be empty"), rfl, Or.inl rfl⟩
  · cases df with
    | none =>
      right
      rw [dd_none env p fs hp]
      exact ⟨.valueError ("download_func cannot be empty"), rfl, Or.inl rfl⟩
    | some f =>
      rcases hffs : f fs with ⟨r, fs₁⟩
      cases r with
      | error e =>
        right
        have hrun := (dd_some env p f fs hp).trans (body_err hffs)
        rw [hrun]
        exact ⟨e, rfl, Or.inr ⟨f, .error e, fs₁, rfl, hffs, rfl⟩⟩
      | ok src =>
        cases hmk : FS.makedirs fs₁ p with
        | error e =>
          right
          have hrun := (dd_some env p f fs hp).trans
            ((body_ok hffs).trans (after_mkErr hmk))
          rw [hrun]
          exact ⟨e, rfl, Or.inr ⟨f, .ok src, fs₁, rfl, hffs, rfl⟩⟩
        | ok fs₂ =>
          cases hl : lookupKey fs₂.files src with
          | none =>
            right
            have hrun := (dd_some env p f fs hp).trans
              ((body_ok hffs).trans (after_renameErr hmk hl))
            rw [hrun]
            obtain ⟨hfiles, -, -⟩ := makedirs_ok hmk
            exact ⟨.fileNotFoundError src, rfl, Or.inr ⟨f, .ok src, fs₁, rfl, hffs, hfiles⟩⟩
          | some c =>
            left
            have hrun := (dd_some env p f fs hp).trans
              ((body_ok hffs).trans (after_ok hmk hl))
            rw [hrun]
            refine ⟨path_join p (basename src), rfl, ?_⟩
            show (lookupKey
                ((path_join p (basename src), c) ::
                  removeKeys src (path_join p (basename src)) fs₂.files)
                (path_join p (basename src))).isSome = true
            rw [lookupKey_cons, if_pos rfl]
            rfl

/-- Claim C5: precondition violations fail fast with ValueError before any
I/O — an empty destination directory fails with ValueError while the
download function is never invoked (empty trace) and the filesystem is
untouched, and a missing download function fails with ValueError before any
filesystem mutation. -/
theorem download_data_validates_before_io (env : Env) (fs : FS)
    (df : Option DownloadFunc) (p : String) :
    download_data env ("") df fs =
      ⟨.error (.valueError ("raw_data_path cannot be empty")), fs, []⟩ ∧
    ∃ msg, download_data env p none fs = ⟨.error (.valueError msg), fs, []⟩ := by
  constructor
  · rfl
  · by_cases hp : p = ""
    · subst hp
      exact ⟨"raw_data_path cannot be empty", rfl⟩
    · exact ⟨"download_func cannot be empty", dd_none env p fs hp⟩

/-- Claim C6: directory creation is idempotent — under a valid retrieval,
if the destination chain is free of regular files, download_data creates
the destination directory and all its intermediate ancestors and then
succeeds; and when those directories already exist, os.makedirs succeeds
leaving the filesystem exactly unchanged, so pre-existing directories are
not an error and the run proceeds identically. -/
theorem download_data_makedirs_idempotent (env : Env) (p : String) (f : DownloadFunc)
    (fs fs₁ : FS) (src : String)
    (hp : p ≠ "")
    (hf : f fs = (.ok src, fs₁))
    (hsrc : fs₁.fileExists src = true)
    (hanc : ∀ d, d ∈ ancestors p → fs₁.fileExists d = false)
    (hdest : fs₁.fileExists p = false) :
    ((∃ dst, (download_data env p (some f) fs).result = .ok dst) ∧
      (download_data env p (some f) fs).fs.dirExists p = true ∧
      (∀ d, d ∈ ancestors p → (download_data env p (some f) fs).fs.dirExists d = true)) ∧
    ((∀ d, d ∈ ancestors p → fs₁.dirExists d = true) → fs₁.dirExists p = true →
      FS.makedirs fs₁ p = .ok fs₁) := by
  constructor
  · obtain ⟨fs₂, hmk⟩ := makedirs_total hanc hdest
    obtain ⟨hfiles, hdirp, hall⟩ := makedirs_ok hmk
    have hex₂ : (lookupKey fs₂.files src).isSome = true := by
      rw [show lookupKey fs₂.files src = lookupKey fs₁.files src from by rw [hfiles]]
      exact hsrc
    obtain ⟨c, hc⟩ := Option.isSome_iff_exists.mp hex₂
    have hrun := (dd_some env p f fs hp).trans ((body_ok hf).trans (after_ok hmk hc))
    rw [hrun]
    exact ⟨⟨path_join p (basename src), rfl⟩, hdirp, hall⟩
  · intro hdirs hdirp
    exact makedirs_id (fun d hd => ⟨hdirs d hd, hanc d hd⟩) hdirp hdest

/-- Claim C6 witness: a nested destination a/b/c that does not exist is
created together with both intermediates, and the run succeeds. -/
theorem download_data_makedirs_idempotent_witness :
    (∃ dst, (download_data env0 ("a/b/c") (some fW6) fsW6).result = .ok dst) ∧
    (download_data env0 ("a/b/c") (some fW6) fsW6).fs.dirExists ("a/b/c") = true ∧
    (download_data env0 ("a/b/c") (some fW6) fsW6).fs.dirExists ("a") = true ∧
    (download_data env0 ("a/b/c") (some fW6) fsW6).fs.dirExists ("a/b") = true :=
  have h := download_data_makedirs_idempotent env0 ("a/b/c") fW6 fsW6 fsW6 ("d.csv")
    (by decide) rfl (by decide) (by decide) (by decide)
  ⟨h.1.1, h.1.2.1, h.1.2.2 ("a") (by decide), h.1.2.2 ("a/b") (by decide)⟩

/-- Claim C7: in every run that passes validation the download function is
invoked exactly once, as the first observable action (before the
destination directory is ensured), and the run depends on the download
function only through that single invocation on the initial filesystem. -/
theorem download_data_single_invocation (env : Env) (p : String) (f : DownloadFunc)
    (fs : FS) (hp : p ≠ "") :
    countInvokes (download_data env p (some f) fs).events = 1 ∧
    (download_data env p (some f) fs).events.head? = some .invokeRetrieve ∧
    (∀ f' : DownloadFunc, f' fs = f fs →
      download_data env p (some f') fs = download_data env p (some f) fs) := by
  have h3 : ∀ f' : DownloadFunc, f' fs = f fs →
      download_data env p (some f') fs = download_data env p (some f) fs := by
    intro f' hf'
    rw [dd_some env p f' fs hp, dd_some env p f fs hp]
    unfold downloadBody
    rw [hf']
  have h12 : countInvokes (download_data env p (some f) fs).events = 1 ∧
      (download_data env p (some f) fs).events.head? = some .invokeRetrieve := by
    rcases hffs : f fs with ⟨r, fs₁⟩
    cases r with
    | error e =>
      rw [(dd_some env p f fs hp).trans (body_err hffs)]
      exact ⟨rfl, rfl⟩
    | ok src =>
      cases hmk : FS.makedirs fs₁ p with
      | error e =>
        rw [(dd_some env p f fs hp).trans ((body_ok hffs).trans (after_mkErr hmk))]
        exact ⟨rfl, rfl⟩
      | ok fs₂ =>
        cases hl : lookupKey fs₂.files src with
        | none =>
          rw [(dd_some env p f fs hp).trans
            ((body_ok hffs).trans (after_renameErr hmk hl))]
          exact ⟨rfl, rfl⟩
        | some c =>
          rw [(dd_some env p f fs hp).trans ((body_ok hffs).trans (after_ok hmk hl))]
          exact ⟨rfl, rfl⟩
  exact ⟨h12.1, h12.2, h3⟩

/-- Claim C7 witness: a concrete validated run whose trace invokes the
download function exactly once and first. -/
theorem download_data_single_invocation_witness :
    countInvokes (download_data env0 ("raw") (some fW7) fsW7).events = 1 ∧
    (download_data env0 ("raw") (some fW7) fsW7).events.head? = some .invokeRetrieve :=
  have h := download_data_single_invocation env0 ("raw") fW7 fsW7 (by decide)
  ⟨h.1, h.2.1⟩

/-- Claim C8: download_data performs no environment lookups: its behaviour
on identical arguments and filesystem state is identical for every pair of
process environments (only the entry-point wrapper main_entry reads
RAW_DATA_PATH through getenv). -/
theorem download_data_env_independent (env env' : Env) (p : String)
    (df : Option DownloadFunc) (fs : FS) :
    download_data env p df fs = download_data env' p df fs := rfl

/-- Claim C9: when a file with the same base name already exists at the
computed target path, a successful download_data silently replaces it —
no error is raised and the destination afterwards holds the newly moved
content. -/
theorem download_data_overwrites_existing_target (env : Env) (p : String)
    (f : DownloadFunc) (fs fs₁ fs₂ : FS) (src c : String)
    (hp : p ≠ "")
    (hf : f fs = (.ok src, fs₁))
    (hc : lookupKey fs₁.files src = some c)
    (hmk : FS.makedirs fs₁ p = .ok fs₂)
    (hpre : fs₁.fileExists (path_join p (basename src)) = true) :
    (download_data env p (some f) fs).result = .ok (path_join p (basename src)) ∧
    lookupKey (download_data env p (some f) fs).fs.files
      (path_join p (basename src)) = some c := by
  obtain ⟨hfiles, -, -⟩ := makedirs_ok hmk
  have hc₂ : lookupKey fs₂.files src = some c := by rw [hfiles]; exact hc
  have hrun := (dd_some env p f fs hp).trans ((body_ok hf).trans (after_ok hmk hc₂))
  rw [hrun]
  refine ⟨rfl, ?_⟩
  show lookupKey
      ((path_join p (basename src), c) ::
        removeKeys src (path_join p (basename src)) fs₂.files)
      (path_join p (basename src)) = some c
  rw [lookupKey_cons, if_pos rfl]

/-- Claim C9 witness: raw/new.zip holds OLD beforehand; the run succeeds
and the destination afterwards holds NEW. -/
theorem download_data_overwrites_existing_target_witness :
    (download_data env0 ("raw") (some fW9) fsW9).result =
      .ok (path_join ("raw") (basename ("incoming/new.zip"))) ∧
    lookupKey (download_data env0 ("raw") (some fW9) fsW9).fs.files
      (path_join ("raw") (basename ("incoming/new.zip"))) = some ("NEW") :=
  download_data_overwrites_existing_target env0 ("raw") fW9 fsW9 fsW9 fsW9
    ("incoming/new.zip") ("NEW") (by decide) rfl (by decide) rfl (by decide)

/-- Claim C10: get_user never raises for an unknown user — every username
outside the key set of the hard-coded store (whose only key is alice) maps
to none, and get_user returns a populated record exactly when the username
is a key of the store. -/
theorem get_user_none_iff_present (u : String) :
    (u ∉ fake_users_db.map Prod.fst → get_user u = none) ∧
    ((get_user u).isSome = true ↔ u ∈ fake_users_db.map Prod.fst) := by
  have hmap : fake_users_db.map Prod.fst = ["alice"] := rfl
  rw [hmap]
  by_cases h : "alice" = u
  · subst h
    constructor
    · intro hu
      exact absurd (show ("alice" : String) ∈ ["alice"] from by simp) hu
    · simp [get_user, fake_users_db, lookupKey]
  · constructor
    · intro hu
      simp [get_user, fake_users_db, lookupKey, h]
    · constructor
      · intro hs
        exfalso
        simp [get_user, fake_users_db, lookupKey, h] at hs
      · intro hm
        exfalso
        exact h (show u = "alice" from by simpa using hm).symm

/-- Claim C10 witness: bob is unknown and maps to none; alice is the one
key and maps to a populated record. -/
theorem get_user_none_iff_present_witness :
    get_user ("bob") = none ∧ (get_user ("alice")).isSome = true :=
  ⟨(get_user_none_iff_present ("bob")).1 (by decide),
   (get_user_none_iff_present ("alice")).2.mpr (by decide)⟩
